import Mathlib

/-!
Verification of the External Content Synchronization & Caching Engine of the
Tshimbiluni AI-powered Portfolio repository.

The backend Python services (`backend/src/services/github_fetcher.py`,
`backend/src/services/llama_client.py`, the repositories router) are described
by the repository's documentation (`SECURITY_SUMMARY`, `IMPLEMENTATION_SUMMARY`)
but their code is not part of the source tree given here; the corresponding
components (Endpoint Validator, Log Sanitizer, Synchronization Policy,
Entity Store upsert, Provider Registry) are modelled from the specification.
The frontend TypeScript components (`Projects`, `Chat`, `Skills`) are present
and are embedded directly from their source.
-/

deriving instance DecidableEq for Except

namespace Portfolio

/-! ## String infrastructure

JavaScript `a.includes(b)` / Python `b in a`, modelled on `List Char`. -/

/-- `charsHavePrefix p s` holds when `p` is an initial segment of `s`. -/
def charsHavePrefix : List Char → List Char → Bool
  | [], _ => true
  | _ :: _, [] => false
  | a :: as, b :: bs => a == b && charsHavePrefix as bs

/-- `charsContain s p`: the pattern `p` occurs contiguously inside `s`. -/
def charsContain : List Char → List Char → Bool
  | s, p =>
    match s with
    | [] => p.isEmpty
    | _ :: rest => charsHavePrefix p s || charsContain rest p

/-- String-level substring test: JavaScript `s.includes(p)`, Python `p in s`. -/
def strIncludes (s p : String) : Bool := charsContain s.data p.data

/-! ## Log Sanitizer (§4.2) -/

/-- Modelled from the spec: the Log Sanitizer `_sanitize_for_log` of
`backend/src/services/github_fetcher.py` (code absent from the tree; described
by §4.2 of the design and the security summary).  Per-character rule: a
horizontal tab becomes a single space; every other ASCII control character
(0x00–0x1F), including newline and carriage return, is removed outright;
all other characters pass through unchanged. -/
def sanitizeChar (c : Char) : Option Char :=
  if c = '\t' then some ' '
  else if c.toNat < 32 then none
  else some c

/-- Modelled from the spec: whole-string Log Sanitizer, applying
`sanitizeChar` to every character. -/
def sanitizeForLog (s : String) : String :=
  (s.data.filterMap sanitizeChar).asString

/-! ## Endpoint Validator (§4.1) -/

/-- Rejection result of the Endpoint Validator. -/
inductive EndpointError
  | invalidEndpoint
deriving DecidableEq

/-- Characters trimmed from both ends of a path fragment before validation:
leading/trailing slashes and surrounding whitespace (§4.1). -/
def isTrimChar (c : Char) : Bool :=
  c == '/' || c == ' ' || c == '\t' || c == '\n' || c == '\r'

/-- The validator's allow-set: letters, digits, and `/ - _ ? & = .` (§4.1). -/
def isAllowedChar (c : Char) : Bool :=
  c.isAlpha || c.isDigit || c == '/' || c == '-' || c == '_'
    || c == '?' || c == '&' || c == '=' || c == '.'

/-- Modelled from the spec: the trimming step of `_validate_github_endpoint`
(code absent from the tree): leading/trailing slashes and surrounding
whitespace are stripped before validation, not after. -/
def trimFragment (s : String) : String :=
  ((s.data.dropWhile isTrimChar).rdropWhile isTrimChar).asString

/-- Modelled from the spec: `_validate_github_endpoint` of
`backend/src/services/github_fetcher.py` (code absent from the tree; §4.1 and
the security summary).  After trimming, reject a scheme separator `://`, a
double slash `//`, a parent-directory segment `..`, and any character outside
the allow-set; otherwise return the trimmed fragment. -/
def validateEndpoint (s : String) : Except EndpointError String :=
  let t := trimFragment s
  if strIncludes t "://" then .error .invalidEndpoint
  else if strIncludes t "//" then .error .invalidEndpoint
  else if strIncludes t ".." then .error .invalidEndpoint
  else if t.data.all isAllowedChar then .ok t
  else .error .invalidEndpoint


/-! ## Synchronization Policy (§4.4) -/

/-- Upstream payload of a synchronized profile entity (§3 ExternalProfile,
sync-owned fields). -/
structure EntityData where
  name : String
  bio : String
  followers : Nat
deriving DecidableEq

/-- A stored entity: upstream payload plus its fetch timestamp (§3). -/
structure Entity where
  payload : EntityData
  last_fetched_at : Nat
deriving DecidableEq

/-- What a `sync` call yields (§4.4 failure propagation). -/
inductive SyncOutcome
  | fresh (e : Entity)
  | staleWithWarning (e : Entity)
  | syncFailed
deriving DecidableEq

/-- Result of one `sync` call together with the number of upstream network
calls it performed. -/
structure SyncResult where
  outcome : SyncOutcome
  networkCalls : Nat
deriving DecidableEq

/-- Modelled from the spec: the Synchronization Policy `sync` algorithm of
§4.4 (the backend `sync_github_profile`/`sync_github_repositories` code is
absent from the tree).  If the cached entity is absent, or
`now - last_fetched_at > window`, or force-refresh is requested, fetch via the
Upstream Client (whose outcome is the `fetch` argument); a fetch failure is
`SyncFailed` without a prior cache and serves the stale entry with a non-fatal
warning when a prior entry exists; otherwise the cached entity is returned
unchanged with zero network calls. -/
def syncEntity (cached : Option Entity) (now window : Nat) (forceRefresh : Bool)
    (fetch : Except Unit EntityData) : SyncResult :=
  match cached with
  | none =>
    match fetch with
    | .ok d => ⟨.fresh ⟨d, now⟩, 1⟩
    | .error _ => ⟨.syncFailed, 1⟩
  | some e =>
    if forceRefresh = true ∨ window < now - e.last_fetched_at then
      match fetch with
      | .ok d => ⟨.fresh ⟨d, now⟩, 1⟩
      | .error _ => ⟨.staleWithWarning e, 1⟩
    else ⟨.fresh e, 0⟩

/-! ## Entity Store upsert for repository records (§4.5, §3) -/

/-- A stored repository record (§3 ExternalRepositoryRecord; the
`github_repositories` table of the implementation summary). -/
structure RepoRecord where
  repoId : Nat
  name : String
  description : String
  language : String
  stars : Nat
  forks : Nat
  featured : Bool
  last_fetched_at : Nat
deriving DecidableEq

/-- An upstream repository payload; `featured` is operator-curated and is
`none` when the upstream payload omits it (the usual case). -/
structure RepoPayload where
  repoId : Nat
  name : String
  description : String
  language : String
  stars : Nat
  forks : Nat
  featured : Option Bool
deriving DecidableEq

/-- Modelled from the spec: the Entity Store repository upsert (§4.5; code
absent from the tree): atomic replace-by-key that updates the sync-owned
fields from the payload and preserves any existing operator-curated
`featured` flag when the payload omits it. -/
def upsertRepo (existing : Option RepoRecord) (p : RepoPayload) (now : Nat) :
    RepoRecord :=
  { repoId := p.repoId
    name := p.name
    description := p.description
    language := p.language
    stars := p.stars
    forks := p.forks
    featured :=
      match p.featured with
      | some f => f
      | none =>
        match existing with
        | some r => r.featured
        | none => false
    last_fetched_at := now }

/-! ## Provider Registry (§4.6) -/

/-- An AI-chat provider handle (§3 ProviderHandle): opaque client plus its
configuration fingerprint. -/
structure ProviderHandle where
  providerId : String
  model : String
deriving DecidableEq

/-- Registry state per configured provider identifier (§4.6 state machine;
`Resolving` is the transient middle of a single step and is not observable
between calls). -/
inductive RegState
  | unresolved
  | ready (h : ProviderHandle)
  | failed
deriving DecidableEq

/-- Typed chat failure (§7). -/
inductive ChatError
  | providerUnavailable (provider : String)
deriving DecidableEq

/-- Modelled from the spec: one `complete()` request against the Provider
Registry (§4.6; the backend `get_llm_client` code is absent from the tree).
`construct` is the (fixed) outcome of constructing this provider's client.
Returns the new registry state, the request's result, and how many
construction attempts this call made. -/
def registryStep (providerId : String) (construct : Except Unit ProviderHandle)
    (st : RegState) : RegState × Except ChatError ProviderHandle × Nat :=
  match st with
  | .unresolved =>
    match construct with
    | .ok h => (.ready h, .ok h, 1)
    | .error _ => (.failed, .error (.providerUnavailable providerId), 1)
  | .ready h => (.ready h, .ok h, 0)
  | .failed => (.failed, .error (.providerUnavailable providerId), 0)

/-- State after `n` successive `complete()` calls from `Unresolved`, paired
with the total number of construction attempts made across those calls. -/
def registryRun (providerId : String) (construct : Except Unit ProviderHandle) :
    Nat → RegState × Nat
  | 0 => (.unresolved, 0)
  | n + 1 =>
    let sk := registryRun providerId construct n
    let step := registryStep providerId construct sk.1
    (step.1, sk.2 + step.2.2)

/-! ## Single-flight fetch deduplication (§4.4, §5) -/

/-- Per-key coordination state of the Synchronization Policy: whether a fetch
for the key is in flight, which callers await its result, and how many
upstream calls have been made. -/
structure FlightState where
  inflight : Bool
  waiters : List Nat
  upstreamCalls : Nat
deriving DecidableEq

/-- Modelled from the spec: a caller `c` requests a stale/absent key (§4.4,
§5; the backend coordination code is absent from the tree).  If a fetch for
the key is already in flight the caller joins its waiters; otherwise it starts
the single upstream fetch and awaits it. -/
def flightArrive (st : FlightState) (c : Nat) : FlightState :=
  if st.inflight then { st with waiters := st.waiters ++ [c] }
  else ⟨true, st.waiters ++ [c], st.upstreamCalls + 1⟩

/-- Modelled from the spec: the in-flight fetch completes with result `r`;
every waiter receives that same result (or the same failure) and the flight
clears. -/
def flightComplete (st : FlightState) (r : Except Unit EntityData) :
    FlightState × List (Nat × Except Unit EntityData) :=
  (⟨false, [], st.upstreamCalls⟩, st.waiters.map (fun c => (c, r)))

/-- Initial per-key coordination state: no fetch in flight, no waiters, no
upstream calls made. -/
def initialFlight : FlightState := ⟨false, [], 0⟩

/-- A burst of concurrent callers arriving one interleaving step at a time. -/
def arriveAll (st : FlightState) (cs : List Nat) : FlightState :=
  cs.foldl flightArrive st

/-! ## Frontend: Projects component (src/unnamed/part_000) -/

/-- Component state of `Projects` (`projects` and `loading` React states). -/
structure ProjectsState (α : Type) where
  projects : List α
  loading : Bool

/-- Parsed JSON body of the fallback request
`/api/repositories/TshimbiluniRSA?size=6`; `items` is `none` when the field is
absent. -/
structure FallbackResponse (α : Type) where
  items : Option (List α)

/-- Embedded from `fetchProjects` in src/unnamed/part_000 (`Projects.tsx`).
`primary` is the outcome of `fetch('/api/repositories/featured')` plus JSON
parsing; `fallback` that of the fallback request.  Returns the final component
state and whether the fallback request was issued. -/
def fetchProjects {α : Type} (s0 : ProjectsState α)
    (primary : Except Unit (List α))
    (fallback : Except Unit (FallbackResponse α)) : ProjectsState α × Bool :=
  match primary with
  | .ok ps => (⟨ps, false⟩, false)
  | .error _ =>
    match fallback with
    | .ok resp => (⟨resp.items.getD [], false⟩, true)
    | .error _ => ({ s0 with loading := false }, true)

/-! ## Frontend: Chat component (src/frontend/src/components/Hero.tsx) -/

/-- `message_type` of a chat message. -/
inductive MessageType
  | user
  | assistant
deriving DecidableEq

/-- A chat message as relevant to `handleSendMessage` (ids and timestamps
omitted). -/
structure ChatMsg where
  message_type : MessageType
  content : String
deriving DecidableEq

/-- Component state of `Chat`: `messages`, `inputValue`, `isLoading`. -/
structure ChatState where
  messages : List ChatMsg
  inputValue : String
  isLoading : Bool
deriving DecidableEq

/-- JavaScript `s.trim()`, modelled on the character list. -/
def strTrim (s : String) : String :=
  ((s.data.dropWhile Char.isWhitespace).rdropWhile Char.isWhitespace).asString

/-- The fixed assistant reply appended when the chat API call fails. -/
def errorReplyText : String := "Sorry, I encountered an error. Please try again."

/-- Outcome of one `handleSendMessage` run: the final component state, the
number of chat API calls issued, and the `messages` state at the moment the
API call was issued (equal to the initial messages when no call is made). -/
structure SendOutcome where
  final : ChatState
  apiCalls : Nat
  messagesAtCall : List ChatMsg
deriving DecidableEq

/-- Embedded from `handleSendMessage` of the Chat component in
src/frontend/src/components/Hero.tsx.  An empty-after-trim input or an
in-flight send returns immediately; otherwise the user message is appended,
the input cleared and loading set, the API called (`apiResult` its outcome),
the reply or the fixed error message appended, and loading reset in the
`finally` block. -/
def handleSendMessage (s : ChatState) (apiResult : Except Unit ChatMsg) :
    SendOutcome :=
  if strTrim s.inputValue == "" || s.isLoading then ⟨s, 0, s.messages⟩
  else
    let userMessage : ChatMsg := ⟨.user, s.inputValue⟩
    let afterSend := s.messages ++ [userMessage]
    match apiResult with
    | .ok response => ⟨⟨afterSend ++ [response], "", false⟩, 1, afterSend⟩
    | .error _ => ⟨⟨afterSend ++ [⟨.assistant, errorReplyText⟩], "", false⟩, 1, afterSend⟩

/-! ## Frontend: Skills component (src/unnamed/part_003) -/

/-- JavaScript `s.toLowerCase()`, modelled on the character list. -/
def strToLower (s : String) : String := (s.data.map Char.toLower).asString

/-- Embedded from `categorizeSkills` in src/unnamed/part_003 (`Skills.tsx`):
the fixed category → keyword map. -/
def categories : List (String × List String) :=
  [("Frontend", ["React", "TypeScript", "JavaScript", "HTML", "CSS", "Vite",
      "Tailwind", "Vue", "Angular"]),
   ("Backend", ["Python", "FastAPI", "Node.js", "Django", "Flask", "REST",
      "GraphQL", "Express"]),
   ("AI & ML", ["OpenAI", "LLaMA", "Gemini", "Machine Learning", "NLP",
      "TensorFlow", "PyTorch", "Hugging Face"]),
   ("DevOps", ["Docker", "Kubernetes", "CI/CD", "Git", "Linux", "AWS",
      "PostgreSQL", "MongoDB", "Redis"])]

/-- `skill.toLowerCase().includes(tech.toLowerCase())` of `categorizeSkills`. -/
def skillMatchesTech (skill tech : String) : Bool :=
  strIncludes (strToLower skill) (strToLower tech)

/-- `categories[cat].some(tech => ...)` of `categorizeSkills`. -/
def skillMatchesCategory (skill : String) (techs : List String) : Bool :=
  techs.any (fun tech => skillMatchesTech skill tech)

/-- Embedded from `categorizeSkills` in src/unnamed/part_003 (`Skills.tsx`):
each category keeps the input skills matching one of its keywords
(case-insensitive substring test); skills matching no category go to
`Other`. -/
def categorizeSkills (allSkills : List String) : List (String × List String) :=
  let result := categories.map (fun ct =>
    (ct.1, allSkills.filter (fun skill => skillMatchesCategory skill ct.2)))
  let categorized := (result.map Prod.snd).flatten
  result ++ [("Other", allSkills.filter (fun s => !(categorized.contains s)))]

end Portfolio

open Portfolio

theorem charsHavePrefix_iff (p s : List Char) :
    charsHavePrefix p s = true ↔ p <+: s := by
  induction p generalizing s with
  | nil => simp [charsHavePrefix]
  | cons a as ih =>
    cases s with
    | nil => simp [charsHavePrefix]
    | cons b bs =>
      simp only [charsHavePrefix, Bool.and_eq_true, beq_iff_eq, ih,
        List.cons_prefix_cons]

theorem charsContain_iff (s p : List Char) :
    charsContain s p = true ↔ p <:+: s := by
  induction s with
  | nil =>
    simp [charsContain, List.isEmpty_iff, List.infix_nil]
  | cons c rest ih =>
    simp only [charsContain, Bool.or_eq_true, charsHavePrefix_iff, ih,
      List.infix_cons_iff]

theorem data_asString (l : List Char) : l.asString.data = l := rfl

theorem asString_append (l₁ l₂ : List Char) :
    (l₁ ++ l₂).asString = l₁.asString ++ l₂.asString := by
  apply String.ext
  simp [data_asString, String.data_append]

theorem sanitizeForLog_append (a b : String) :
    sanitizeForLog (a ++ b) = sanitizeForLog a ++ sanitizeForLog b := by
  simp [sanitizeForLog, String.data_append, List.filterMap_append, asString_append]

theorem mem_sanitizeForLog (c : Char) (s : String)
    (h : c ∈ (sanitizeForLog s).data) : 32 ≤ c.toNat := by
  simp only [sanitizeForLog, data_asString, List.mem_filterMap] at h
  obtain ⟨d, _, hd⟩ := h
  unfold sanitizeChar at hd
  by_cases ht : d = '\t'
  · rw [if_pos ht] at hd
    obtain rfl := Option.some.inj hd
    decide
  · rw [if_neg ht] at hd
    by_cases hc : d.toNat < 32
    · rw [if_pos hc] at hd
      exact absurd hd (by simp)
    · rw [if_neg hc] at hd
      obtain rfl := Option.some.inj hd
      omega

theorem sanitizeChar_of_clean (c : Char) (h : 32 ≤ c.toNat) :
    sanitizeChar c = some c := by
  unfold sanitizeChar
  have ht : c ≠ '\t' := by
    intro he
    subst he
    exact absurd h (by decide)
  simp [ht, Nat.not_lt.mpr h]

theorem filterMap_sanitizeChar_of_clean (l : List Char)
    (h : ∀ c ∈ l, sanitizeChar c = some c) :
    l.filterMap sanitizeChar = l := by
  induction l with
  | nil => rfl
  | cons c t ih =>
    rw [List.filterMap_cons, h c (List.mem_cons_self c t),
      ih (fun d hd => h d (List.mem_cons_of_mem c hd))]

theorem sanitizeForLog_idem (s : String) :
    sanitizeForLog (sanitizeForLog s) = sanitizeForLog s := by
  apply String.ext
  simp only [sanitizeForLog, data_asString]
  exact filterMap_sanitizeChar_of_clean _
    (fun c hc => sanitizeChar_of_clean c
      (mem_sanitizeForLog c s (by simpa [sanitizeForLog, data_asString] using hc)))

theorem sanitizeChar_control (c : Char) (hc : c.toNat < 32) (hct : c ≠ '\t') :
    sanitizeChar c = none := by
  unfold sanitizeChar
  rw [if_neg hct, if_pos hc]


/-- C4: for every input string the Log Sanitizer output contains no newline or
carriage-return; a horizontal tab anywhere in the input is replaced by a single
space; any other ASCII control character (0x00–0x1F) is removed outright; and
the sanitizer is idempotent. -/
theorem C4_log_sanitizer_clean_and_idempotent (s a b : String) (c : Char)
    (hc : c.toNat < 32) (hct : c ≠ '\t') :
    ('\n' ∉ (sanitizeForLog s).data ∧ '\r' ∉ (sanitizeForLog s).data)
    ∧ sanitizeForLog (a ++ "\t" ++ b) = sanitizeForLog a ++ " " ++ sanitizeForLog b
    ∧ sanitizeForLog (a ++ String.mk [c] ++ b) = sanitizeForLog a ++ sanitizeForLog b
    ∧ sanitizeForLog (sanitizeForLog s) = sanitizeForLog s := by
  refine ⟨⟨fun h => ?_, fun h => ?_⟩, ?_, ?_, sanitizeForLog_idem s⟩
  · exact absurd (mem_sanitizeForLog _ s h) (by decide)
  · exact absurd (mem_sanitizeForLog _ s h) (by decide)
  · rw [sanitizeForLog_append, sanitizeForLog_append]
    have htab : sanitizeForLog "\t" = " " := by decide
    rw [htab]
  · rw [sanitizeForLog_append, sanitizeForLog_append]
    have hone : sanitizeForLog (String.mk [c]) = "" := by
      apply String.ext
      simp [sanitizeForLog, data_asString, List.filterMap_cons,
        sanitizeChar_control c hc hct]
    rw [hone]
    apply String.ext
    simp [String.data_append]

/-- Witness for C4 at concrete inputs. -/
theorem C4_witness :
    (('\n' ∉ (sanitizeForLog "a\n\rb").data ∧ '\r' ∉ (sanitizeForLog "a\n\rb").data)
    ∧ sanitizeForLog ("x" ++ "\t" ++ "y") = sanitizeForLog "x" ++ " " ++ sanitizeForLog "y"
    ∧ sanitizeForLog ("x" ++ String.mk [Char.ofNat 1] ++ "y")
        = sanitizeForLog "x" ++ sanitizeForLog "y"
    ∧ sanitizeForLog (sanitizeForLog "a\n\rb") = sanitizeForLog "a\n\rb") :=
  C4_log_sanitizer_clean_and_idempotent "a\n\rb" "x" "y" (Char.ofNat 1)
    (by decide) (by decide)

/-! ### Endpoint Validator lemmas -/

theorem mem_dropWhile_of_mem {p : Char → Bool} {l : List Char} {c : Char}
    (hc : c ∈ l) (hp : p c = false) : c ∈ l.dropWhile p := by
  induction l with
  | nil => cases hc
  | cons a t ih =>
    rw [List.dropWhile_cons]
    by_cases ha : p a = true
    · rw [if_pos ha]
      rcases List.mem_cons.mp hc with rfl | hm
      · rw [hp] at ha
        cases ha
      · exact ih hm
    · rw [if_neg ha]
      exact hc

theorem mem_trimFragment_of_mem {s : String} {c : Char}
    (hc : c ∈ s.data) (hp : isTrimChar c = false) : c ∈ (trimFragment s).data := by
  unfold trimFragment
  rw [data_asString, List.rdropWhile, List.mem_reverse]
  apply mem_dropWhile_of_mem _ hp
  rw [List.mem_reverse]
  exact mem_dropWhile_of_mem hc hp

theorem infix_dropWhile_of_head {p : Char → Bool} {pat l : List Char} {a : Char}
    (hin : pat <:+: l) (hhead : pat.head? = some a) (hp : p a = false) :
    pat <:+: l.dropWhile p := by
  induction l with
  | nil => simpa using hin
  | cons b t ih =>
    rw [List.dropWhile_cons]
    by_cases hb : p b = true
    · rw [if_pos hb]
      rcases List.infix_cons_iff.mp hin with hpre | hinf
      · cases pat with
        | nil => simp at hhead
        | cons x xs =>
          obtain rfl : x = a := by simpa using hhead
          obtain ⟨rfl, -⟩ := List.cons_prefix_cons.mp hpre
          rw [hp] at hb
          cases hb
      · exact ih hinf
    · rw [if_neg hb]
      exact hin

theorem infix_trimFragment {s : String} {pat : List Char}
    (hne : pat ≠ []) (hall : ∀ c ∈ pat, isTrimChar c = false)
    (hin : pat <:+: s.data) : pat <:+: (trimFragment s).data := by
  unfold trimFragment
  rw [data_asString, List.rdropWhile]
  have h1 : pat <:+: s.data.dropWhile isTrimChar :=
    infix_dropWhile_of_head hin (List.head?_eq_head hne)
      (hall _ (List.head_mem hne))
  have h2 : pat.reverse <:+: (s.data.dropWhile isTrimChar).reverse :=
    List.reverse_infix.mpr h1
  have hner : pat.reverse ≠ [] := by
    simpa using hne
  have hhead : pat.reverse.head? = some (pat.getLast hne) := by
    rw [List.head?_reverse, List.getLast?_eq_getLast pat hne]
  have h3 : pat.reverse <:+: (s.data.dropWhile isTrimChar).reverse.dropWhile isTrimChar :=
    infix_dropWhile_of_head h2 hhead (hall _ (List.getLast_mem hne))
  have h4 := List.reverse_infix.mpr h3
  rwa [List.reverse_reverse] at h4

theorem validateEndpoint_error_of_disallowed {s : String} {c : Char}
    (hc : c ∈ (trimFragment s).data) (hna : isAllowedChar c = false) :
    validateEndpoint s = .error .invalidEndpoint := by
  unfold validateEndpoint
  by_cases h1 : strIncludes (trimFragment s) "://" = true
  · simp [h1]
  · by_cases h2 : strIncludes (trimFragment s) "//" = true
    · simp [h1, h2]
    · by_cases h3 : strIncludes (trimFragment s) ".." = true
      · simp [h1, h2, h3]
      · have h4 : (trimFragment s).data.all isAllowedChar = false := by
          rcases h : (trimFragment s).data.all isAllowedChar with _ | _
          · rfl
          · have := List.all_eq_true.mp h c hc
            rw [hna] at this
            cases this
        simp [h1, h2, h3, h4]

theorem validateEndpoint_error_of_trimmed_includes {s : String} {pat : String}
    (hpat : pat = "://" ∨ pat = "//" ∨ pat = "..")
    (h : strIncludes (trimFragment s) pat = true) :
    validateEndpoint s = .error .invalidEndpoint := by
  unfold validateEndpoint
  by_cases h1 : strIncludes (trimFragment s) "://" = true
  · simp [h1]
  · by_cases h2 : strIncludes (trimFragment s) "//" = true
    · simp [h1, h2]
    · by_cases h3 : strIncludes (trimFragment s) ".." = true
      · simp [h1, h2, h3]
      · rcases hpat with rfl | rfl | rfl
        · exact absurd h h1
        · exact absurd h h2
        · exact absurd h h3

/-- C3 counterexample: the claim quantifies over the raw fragment, but trimming
happens before validation (§4.1), so a fragment whose only bare `//` (or
disallowed character) lies in the trimmed-away leading/trailing region is
accepted rather than rejected. -/
theorem C3_counterexample :
    (strIncludes "a//" "//" = true ∧ validateEndpoint "a//" = .ok "a")
    ∧ (' ' ∈ " a".data ∧ isAllowedChar ' ' = false ∧ validateEndpoint " a" = .ok "a") := by
  decide

/-- C3 (amended): fragments containing `://` or `..` are always rejected with
InvalidEndpoint (those substrings survive trimming); a fragment whose trimmed
form contains a bare `//` or any character outside the allow-set of letters,
digits and `/ - _ ? & = .` is rejected; and when the trimmed form passes every
rule the validator returns it (the fragment unchanged up to trimming of
leading/trailing slashes and whitespace). -/
theorem C3_endpoint_validator (s : String) :
    (strIncludes s "://" = true → validateEndpoint s = .error .invalidEndpoint)
    ∧ (strIncludes s ".." = true → validateEndpoint s = .error .invalidEndpoint)
    ∧ (strIncludes (trimFragment s) "//" = true →
        validateEndpoint s = .error .invalidEndpoint)
    ∧ (∀ c ∈ (trimFragment s).data, isAllowedChar c = false →
        validateEndpoint s = .error .invalidEndpoint)
    ∧ (strIncludes (trimFragment s) "://" = false →
        strIncludes (trimFragment s) "//" = false →
        strIncludes (trimFragment s) ".." = false →
        (trimFragment s).data.all isAllowedChar = true →
        validateEndpoint s = .ok (trimFragment s)) := by
  refine ⟨fun h => ?_, fun h => ?_, fun h => ?_, fun c hc hna => ?_, fun h1 h2 h3 h4 => ?_⟩
  · have hin : "://".data <:+: s.data := (charsContain_iff _ _).mp h
    have hcol : ':' ∈ s.data := hin.subset (by decide)
    exact validateEndpoint_error_of_disallowed
      (mem_trimFragment_of_mem hcol (by decide)) (by decide)
  · have hin : "..".data <:+: s.data := (charsContain_iff _ _).mp h
    have htrim : "..".data <:+: (trimFragment s).data :=
      infix_trimFragment (by decide) (by decide) hin
    exact validateEndpoint_error_of_trimmed_includes (Or.inr (Or.inr rfl))
      ((charsContain_iff _ _).mpr htrim)
  · exact validateEndpoint_error_of_trimmed_includes (Or.inr (Or.inl rfl)) h
  · exact validateEndpoint_error_of_disallowed hc hna
  · unfold validateEndpoint
    simp [h1, h2, h3, h4]

/-- Witness for C3 at concrete inputs. -/
theorem C3_witness :
    validateEndpoint "a://b" = .error .invalidEndpoint
    ∧ validateEndpoint "a..b" = .error .invalidEndpoint
    ∧ validateEndpoint "a//b" = .error .invalidEndpoint
    ∧ validateEndpoint "a b" = .error .invalidEndpoint
    ∧ validateEndpoint "/users/alice/" = .ok "users/alice" :=
  ⟨(C3_endpoint_validator "a://b").1 (by decide),
   (C3_endpoint_validator "a..b").2.1 (by decide),
   (C3_endpoint_validator "a//b").2.2.1 (by decide),
   (C3_endpoint_validator "a b").2.2.2.1 ' ' (by decide) (by decide),
   (C3_endpoint_validator "/users/alice/").2.2.2.2 (by decide) (by decide) (by decide)
     (by decide)⟩

/-! ### Synchronization Policy theorems -/

/-- C2: with forceRefresh=false, a cached entity whose age is within the
window is returned unchanged with zero network calls; an absent entity, or one
older than the window, triggers exactly one network call and the resulting
entity's last_fetched_at is the new fetch time. -/
theorem C2_sync_cache_policy (e : Entity) (d : EntityData) (now window : Nat) :
    (now - e.last_fetched_at ≤ window →
      syncEntity (some e) now window false (.ok d) = ⟨.fresh e, 0⟩)
    ∧ (window < now - e.last_fetched_at →
      syncEntity (some e) now window false (.ok d) = ⟨.fresh ⟨d, now⟩, 1⟩)
    ∧ syncEntity none now window false (.ok d) = ⟨.fresh ⟨d, now⟩, 1⟩ := by
  refine ⟨fun h => ?_, fun h => ?_, rfl⟩
  · simp [syncEntity, Nat.not_lt.mpr h]
  · simp [syncEntity, h]

/-- Witness for C2: last fetch 23 hours ago with a 24-hour window is a cache
hit with zero network calls; 25 hours ago triggers exactly one call and
updates last_fetched_at. -/
theorem C2_witness :
    syncEntity (some ⟨⟨"octocat", "bio", 7⟩, 0⟩) 23 24 false (.ok ⟨"octocat", "new", 8⟩)
      = ⟨.fresh ⟨⟨"octocat", "bio", 7⟩, 0⟩, 0⟩
    ∧ syncEntity (some ⟨⟨"octocat", "bio", 7⟩, 0⟩) 25 24 false (.ok ⟨"octocat", "new", 8⟩)
      = ⟨.fresh ⟨⟨"octocat", "new", 8⟩, 25⟩, 1⟩ :=
  ⟨(C2_sync_cache_policy ⟨⟨"octocat", "bio", 7⟩, 0⟩ ⟨"octocat", "new", 8⟩ 23 24).1
      (by decide),
   (C2_sync_cache_policy ⟨⟨"octocat", "bio", 7⟩, 0⟩ ⟨"octocat", "new", 8⟩ 25 24).2.1
      (by decide)⟩

/-- C5: an upstream failure with no prior cache entry surfaces as SyncFailed;
the same failure with a prior (stale or force-refreshed) entry serves the
stale entry with a non-fatal warning instead of an error. -/
theorem C5_sync_failure_propagation (e : Entity) (now window : Nat) (force : Bool) :
    syncEntity none now window force (.error ()) = ⟨.syncFailed, 1⟩
    ∧ (force = true ∨ window < now - e.last_fetched_at →
        syncEntity (some e) now window force (.error ()) = ⟨.staleWithWarning e, 1⟩) := by
  refine ⟨rfl, fun h => ?_⟩
  rcases h with hf | hlt
  · subst hf
    simp [syncEntity]
  · simp [syncEntity, hlt]

/-- Witness for C5 at concrete inputs. -/
theorem C5_witness :
    syncEntity none 25 24 false (.error ()) = ⟨.syncFailed, 1⟩
    ∧ syncEntity (some ⟨⟨"octocat", "bio", 7⟩, 0⟩) 25 24 false (.error ())
      = ⟨.staleWithWarning ⟨⟨"octocat", "bio", 7⟩, 0⟩, 1⟩ :=
  ⟨(C5_sync_failure_propagation ⟨⟨"octocat", "bio", 7⟩, 0⟩ 25 24 false).1,
   (C5_sync_failure_propagation ⟨⟨"octocat", "bio", 7⟩, 0⟩ 25 24 false).2
      (by decide)⟩

/-! ### Entity Store upsert theorem -/

/-- C6: upserting over a record with featured = true using a payload that
omits the operator-curated featured field leaves featured = true, while all
sync-owned fields are updated from the payload. -/
theorem C6_featured_survives_resync (r : RepoRecord) (p : RepoPayload) (now : Nat)
    (hf : r.featured = true) (hp : p.featured = none) :
    (upsertRepo (some r) p now).featured = true
    ∧ (upsertRepo (some r) p now).repoId = p.repoId
    ∧ (upsertRepo (some r) p now).name = p.name
    ∧ (upsertRepo (some r) p now).description = p.description
    ∧ (upsertRepo (some r) p now).language = p.language
    ∧ (upsertRepo (some r) p now).stars = p.stars
    ∧ (upsertRepo (some r) p now).forks = p.forks
    ∧ (upsertRepo (some r) p now).last_fetched_at = now := by
  refine ⟨?_, rfl, rfl, rfl, rfl, rfl, rfl, rfl⟩
  simp [upsertRepo, hp, hf]

/-- Witness for C6 at a concrete record and payload. -/
theorem C6_witness :
    (upsertRepo (some ⟨1, "old", "odesc", "Python", 5, 2, true, 10⟩)
        ⟨1, "new", "ndesc", "Python", 9, 3, none⟩ 40).featured = true
    ∧ (upsertRepo (some ⟨1, "old", "odesc", "Python", 5, 2, true, 10⟩)
        ⟨1, "new", "ndesc", "Python", 9, 3, none⟩ 40).name = "new"
    ∧ (upsertRepo (some ⟨1, "old", "odesc", "Python", 5, 2, true, 10⟩)
        ⟨1, "new", "ndesc", "Python", 9, 3, none⟩ 40).stars = 9 :=
  ⟨(C6_featured_survives_resync ⟨1, "old", "odesc", "Python", 5, 2, true, 10⟩
      ⟨1, "new", "ndesc", "Python", 9, 3, none⟩ 40 rfl rfl).1,
   (C6_featured_survives_resync ⟨1, "old", "odesc", "Python", 5, 2, true, 10⟩
      ⟨1, "new", "ndesc", "Python", 9, 3, none⟩ 40 rfl rfl).2.2.1,
   (C6_featured_survives_resync ⟨1, "old", "odesc", "Python", 5, 2, true, 10⟩
      ⟨1, "new", "ndesc", "Python", 9, 3, none⟩ 40 rfl rfl).2.2.2.2.2.1⟩

/-! ### Provider Registry theorems -/

theorem registryRun_succ (pid : String) (c : Except Unit ProviderHandle) (n : Nat) :
    registryRun pid c (n + 1)
      = ((registryStep pid c (registryRun pid c n).1).1,
         (registryRun pid c n).2 + (registryStep pid c (registryRun pid c n).1).2.2) := rfl

theorem registryRun_ok (pid : String) (h : ProviderHandle) (n : Nat) (hn : 1 ≤ n) :
    registryRun pid (.ok h) n = (.ready h, 1) := by
  induction n with
  | zero => exact absurd hn (by omega)
  | succ m ih =>
    cases m with
    | zero => rfl
    | succ k =>
      have hrec := ih (by omega)
      rw [registryRun_succ, hrec]
      rfl

theorem registryRun_err (pid : String) (n : Nat) (hn : 1 ≤ n) :
    registryRun pid (.error ()) n = (.failed, 1) := by
  induction n with
  | zero => exact absurd hn (by omega)
  | succ m ih =>
    cases m with
    | zero => rfl
    | succ k =>
      have hrec := ih (by omega)
      rw [registryRun_succ, hrec]
      rfl

/-- C7: across any positive number of complete() calls the provider client is
constructed exactly once in total; on successful construction the registry is
Ready and every further call reuses the cached handle with zero constructions;
on failed construction the registry is Failed and every further call fails
fast with ProviderUnavailable naming the provider, with zero constructions. -/
theorem C7_provider_registry (pid : String) (c : Except Unit ProviderHandle)
    (n : Nat) (hn : 1 ≤ n) :
    (registryRun pid c n).2 = 1
    ∧ (∀ h, c = .ok h → (registryRun pid c n).1 = .ready h
        ∧ registryStep pid c (registryRun pid c n).1 = (.ready h, .ok h, 0))
    ∧ (c = .error () → (registryRun pid c n).1 = .failed
        ∧ registryStep pid c (registryRun pid c n).1
            = (.failed, .error (.providerUnavailable pid), 0)) := by
  rcases c with u | h
  · cases u
    rw [registryRun_err pid n hn]
    refine ⟨rfl, ?_, fun _ => ⟨rfl, rfl⟩⟩
    intro h' hcon
    cases hcon
  · rw [registryRun_ok pid h n hn]
    refine ⟨rfl, ?_, fun hcon => by cases hcon⟩
    intro h' hh
    injection hh with hh
    subst hh
    exact ⟨rfl, rfl⟩

/-- Witness for C7: after three calls with a successful construction, exactly
one construction happened and the registry is Ready with the cached handle;
after three calls with a failing construction, exactly one construction was
attempted and calls keep failing fast. -/
theorem C7_witness :
    (registryRun "gemini" (.ok ⟨"gemini", "flash"⟩) 3).2 = 1
    ∧ (registryRun "gemini" (.ok ⟨"gemini", "flash"⟩) 3).1 = .ready ⟨"gemini", "flash"⟩
    ∧ (registryRun "gemini" (.error ()) 3).2 = 1
    ∧ registryStep "gemini" (.error ()) (registryRun "gemini" (.error ()) 3).1
        = (.failed, .error (.providerUnavailable "gemini"), 0) :=
  ⟨(C7_provider_registry "gemini" (.ok ⟨"gemini", "flash"⟩) 3 (by decide)).1,
   ((C7_provider_registry "gemini" (.ok ⟨"gemini", "flash"⟩) 3 (by decide)).2.1
      ⟨"gemini", "flash"⟩ rfl).1,
   (C7_provider_registry "gemini" (.error ()) 3 (by decide)).1,
   ((C7_provider_registry "gemini" (.error ()) 3 (by decide)).2.2 rfl).2⟩

/-! ### Single-flight theorems -/

theorem arriveAll_inflight (cs w : List Nat) (k : Nat) :
    arriveAll ⟨true, w, k⟩ cs = ⟨true, w ++ cs, k⟩ := by
  induction cs generalizing w with
  | nil => simp [arriveAll]
  | cons c t ih =>
    have hstep : flightArrive ⟨true, w, k⟩ c = ⟨true, w ++ [c], k⟩ := rfl
    have hrec := ih (w ++ [c])
    simp only [arriveAll, List.foldl_cons, hstep] at *
    rw [hrec, List.append_assoc, List.singleton_append]

/-- C1: when any positive number of callers request the same stale/absent key
concurrently (arriving in any order while the flight coordination state starts
empty), exactly one upstream call is made in total, a single fetch is in
flight, and on completion every caller receives the same result (or the same
failure). -/
theorem C1_single_flight_dedup (cs : List Nat) (hne : cs ≠ [])
    (r : Except Unit EntityData) :
    (arriveAll initialFlight cs).upstreamCalls = 1
    ∧ (arriveAll initialFlight cs).inflight = true
    ∧ (flightComplete (arriveAll initialFlight cs) r).2 = cs.map (fun c => (c, r)) := by
  cases cs with
  | nil => exact absurd rfl hne
  | cons c t =>
    have h1 : arriveAll initialFlight (c :: t) = ⟨true, c :: t, 1⟩ := by
      have hstep : flightArrive initialFlight c = ⟨true, [c], 1⟩ := rfl
      simp only [arriveAll, List.foldl_cons, hstep]
      have := arriveAll_inflight t [c] 1
      simp only [arriveAll] at this
      rw [this, List.singleton_append]
    rw [h1]
    exact ⟨rfl, rfl, rfl⟩

/-- Witness for C1: three concurrent callers for one stale key cause exactly
one upstream call and all three receive the same failure. -/
theorem C1_witness :
    (arriveAll initialFlight [7, 8, 9]).upstreamCalls = 1
    ∧ (arriveAll initialFlight [7, 8, 9]).inflight = true
    ∧ (flightComplete (arriveAll initialFlight [7, 8, 9]) (.error ())).2
        = [(7, .error ()), (8, .error ()), (9, .error ())] :=
  (C1_single_flight_dedup [7, 8, 9] (by decide) (.error ()))

/-! ### Projects component theorem -/

/-- C8: in every run of fetchProjects the loading flag ends false; whenever the
primary featured-repositories request throws, the fallback request is issued;
a successful fallback sets projects to its items field, or to the empty list
when items is absent. -/
theorem C8_fetchProjects_fallback (α : Type) (s0 : ProjectsState α)
    (primary : Except Unit (List α)) (fallback : Except Unit (FallbackResponse α)) :
    ((fetchProjects s0 primary fallback).1.loading = false)
    ∧ (∀ e, primary = .error e → (fetchProjects s0 primary fallback).2 = true)
    ∧ (∀ e resp items, primary = .error e → fallback = .ok resp →
        resp.items = some items →
        (fetchProjects s0 primary fallback).1.projects = items)
    ∧ (∀ e resp, primary = .error e → fallback = .ok resp → resp.items = none →
        (fetchProjects s0 primary fallback).1.projects = []) := by
  rcases primary with e | ps
  · rcases fallback with e' | resp
    · refine ⟨rfl, fun _ _ => rfl, ?_, ?_⟩
      · intro _ _ _ _ hf
        cases hf
      · intro _ _ _ hf
        cases hf
    · refine ⟨rfl, fun _ _ => rfl, ?_, ?_⟩
      · intro _ r items _ hr hitems
        injection hr with hr
        subst hr
        simp [fetchProjects, hitems]
      · intro _ r _ hr hitems
        injection hr with hr
        subst hr
        simp [fetchProjects, hitems]
  · refine ⟨rfl, ?_, ?_, ?_⟩
    · intro _ h
      cases h
    · intro _ _ _ h
      cases h
    · intro _ _ h
      cases h

/-- Witness for C8: primary failure, fallback succeeding with items, at
concrete values. -/
theorem C8_witness :
    ((fetchProjects (⟨[1], true⟩ : ProjectsState Nat) (.error ()) (.ok ⟨some [2, 3]⟩)).1.loading
        = false)
    ∧ (fetchProjects (⟨[1], true⟩ : ProjectsState Nat) (.error ()) (.ok ⟨some [2, 3]⟩)).2 = true
    ∧ (fetchProjects (⟨[1], true⟩ : ProjectsState Nat) (.error ()) (.ok ⟨some [2, 3]⟩)).1.projects
        = [2, 3] :=
  ⟨(C8_fetchProjects_fallback Nat ⟨[1], true⟩ (.error ()) (.ok ⟨some [2, 3]⟩)).1,
   (C8_fetchProjects_fallback Nat ⟨[1], true⟩ (.error ()) (.ok ⟨some [2, 3]⟩)).2.1 () rfl,
   (C8_fetchProjects_fallback Nat ⟨[1], true⟩ (.error ()) (.ok ⟨some [2, 3]⟩)).2.2.1
      () ⟨some [2, 3]⟩ [2, 3] rfl rfl rfl⟩

/-! ### Chat component theorems -/

theorem handleSendMessage_guard {s : ChatState} (apiResult : Except Unit ChatMsg)
    (h : strTrim s.inputValue = "" ∨ s.isLoading = true) :
    handleSendMessage s apiResult = ⟨s, 0, s.messages⟩ := by
  have hcond : (strTrim s.inputValue == "" || s.isLoading) = true := by
    rcases h with h | h
    · simp [h]
    · simp [h]
  unfold handleSendMessage
  rw [hcond]
  rfl

theorem handleSendMessage_sends {s : ChatState} (apiResult : Except Unit ChatMsg)
    (h1 : strTrim s.inputValue ≠ "") (h2 : s.isLoading = false) :
    handleSendMessage s apiResult =
      match apiResult with
      | .ok response =>
          ⟨⟨(s.messages ++ [⟨.user, s.inputValue⟩]) ++ [response], "", false⟩, 1,
            s.messages ++ [⟨.user, s.inputValue⟩]⟩
      | .error _ =>
          ⟨⟨(s.messages ++ [⟨.user, s.inputValue⟩]) ++ [⟨.assistant, errorReplyText⟩],
            "", false⟩, 1, s.messages ++ [⟨.user, s.inputValue⟩]⟩ := by
  have hcond : (strTrim s.inputValue == "" || s.isLoading) = false := by
    simp [h2, h1]
  unfold handleSendMessage
  rw [hcond]
  rfl

/-- C9: handleSendMessage returns immediately, with no API call and the state
unchanged, when the input is empty after trimming or a send is in flight;
otherwise exactly one API call is made with exactly the one user message
appended beforehand, isLoading ends false whether the call succeeds or fails,
and on failure the fixed error reply is appended in place of a response. -/
theorem C9_handleSendMessage_behavior (s : ChatState) (apiResult : Except Unit ChatMsg) :
    ((strTrim s.inputValue = "" ∨ s.isLoading = true) →
      handleSendMessage s apiResult = ⟨s, 0, s.messages⟩)
    ∧ (strTrim s.inputValue ≠ "" → s.isLoading = false →
        (handleSendMessage s apiResult).apiCalls = 1
        ∧ (handleSendMessage s apiResult).messagesAtCall
            = s.messages ++ [⟨.user, s.inputValue⟩]
        ∧ (handleSendMessage s apiResult).final.isLoading = false
        ∧ (∀ resp, apiResult = .ok resp →
            (handleSendMessage s apiResult).final.messages
              = s.messages ++ [⟨.user, s.inputValue⟩, resp])
        ∧ (apiResult = .error () →
            (handleSendMessage s apiResult).final.messages
              = s.messages ++ [⟨.user, s.inputValue⟩, ⟨.assistant, errorReplyText⟩])) := by
  refine ⟨fun h => handleSendMessage_guard apiResult h, fun h1 h2 => ?_⟩
  rw [handleSendMessage_sends apiResult h1 h2]
  rcases apiResult with u | resp
  · cases u
    refine ⟨rfl, rfl, rfl, ?_, ?_⟩
    · intro r hcon
      cases hcon
    · intro _
      simp
  · refine ⟨rfl, rfl, rfl, ?_, ?_⟩
    · intro r hr
      injection hr with hr
      subst hr
      simp
    · intro hcon
      cases hcon

/-- Witness for C9 at concrete states: a whitespace-only input is a no-op; a
real send appends the user message then the reply, or the fixed error text on
failure, and loading ends false. -/
theorem C9_witness :
    handleSendMessage ⟨[], "  ", false⟩ (.ok ⟨.assistant, "hello"⟩)
      = ⟨⟨[], "  ", false⟩, 0, []⟩
    ∧ (handleSendMessage ⟨[], "hi", false⟩ (.ok ⟨.assistant, "hello"⟩)).final.messages
        = [⟨.user, "hi"⟩, ⟨.assistant, "hello"⟩]
    ∧ (handleSendMessage ⟨[], "hi", false⟩ (.error ())).final.messages
        = [⟨.user, "hi"⟩, ⟨.assistant, errorReplyText⟩]
    ∧ (handleSendMessage ⟨[], "hi", false⟩ (.error ())).apiCalls = 1
    ∧ (handleSendMessage ⟨[], "hi", false⟩ (.error ())).final.isLoading = false :=
  ⟨(C9_handleSendMessage_behavior ⟨[], "  ", false⟩ (.ok ⟨.assistant, "hello"⟩)).1
      (Or.inl (by decide)),
   ((C9_handleSendMessage_behavior ⟨[], "hi", false⟩ (.ok ⟨.assistant, "hello"⟩)).2
      (by decide) rfl).2.2.2.1 ⟨.assistant, "hello"⟩ rfl,
   ((C9_handleSendMessage_behavior ⟨[], "hi", false⟩ (.error ())).2
      (by decide) rfl).2.2.2.2 rfl,
   ((C9_handleSendMessage_behavior ⟨[], "hi", false⟩ (.error ())).2
      (by decide) rfl).1,
   ((C9_handleSendMessage_behavior ⟨[], "hi", false⟩ (.error ())).2
      (by decide) rfl).2.2.1⟩

/-! ### Skills component theorems -/

theorem categorizeSkills_eq (allSkills : List String) :
    categorizeSkills allSkills
      = categories.map (fun ct =>
          (ct.1, allSkills.filter (fun skill => skillMatchesCategory skill ct.2)))
        ++ [("Other", allSkills.filter (fun s =>
              !((categories.map (fun ct =>
                  allSkills.filter (fun skill => skillMatchesCategory skill ct.2))).flatten.contains
                s)))] := by
  rfl

theorem mem_categorized_iff (allSkills : List String) (s : String) :
    s ∈ (categories.map (fun ct =>
        allSkills.filter (fun skill => skillMatchesCategory skill ct.2))).flatten
      ↔ s ∈ allSkills ∧ ∃ ct ∈ categories, skillMatchesCategory s ct.2 = true := by
  simp only [List.mem_flatten, List.mem_map]
  constructor
  · rintro ⟨l, ⟨ct, hct, rfl⟩, hsl⟩
    obtain ⟨hs, hm⟩ := List.mem_filter.mp hsl
    exact ⟨hs, ct, hct, hm⟩
  · rintro ⟨hs, ct, hct, hm⟩
    exact ⟨_, ⟨ct, hct, rfl⟩, List.mem_filter.mpr ⟨hs, hm⟩⟩

theorem contains_eq_false_iff (l : List String) (a : String) :
    l.contains a = false ↔ a ∉ l := by
  rw [Bool.eq_false_iff]
  constructor
  · intro h hmem
    exact h (by simpa using hmem)
  · intro h hc
    exact h (by simpa using hc)

theorem categories_no_other : ∀ ct ∈ categories, ct.1 ≠ "Other" := by
  decide

/-- C10: categorizeSkills covers its input: the union of the returned category
lists is exactly the set of input skills; an input skill whose lower-cased
form contains a category keyword (lower-cased) appears in that category's
list; and the Other list holds exactly the input skills matching no keyword of
any category. -/
theorem C10_categorizeSkills_cover (allSkills : List String) (s : String) :
    ((∃ cl ∈ categorizeSkills allSkills, s ∈ cl.2) ↔ s ∈ allSkills)
    ∧ (∀ ct ∈ categories, s ∈ allSkills → skillMatchesCategory s ct.2 = true →
        ∃ l, (ct.1, l) ∈ categorizeSkills allSkills ∧ s ∈ l)
    ∧ (∀ l, ("Other", l) ∈ categorizeSkills allSkills →
        (s ∈ l ↔ s ∈ allSkills ∧ ∀ ct ∈ categories, skillMatchesCategory s ct.2 = false)) := by
  refine ⟨⟨?_, ?_⟩, ?_, ?_⟩
  · rintro ⟨cl, hcl, hs⟩
    rw [categorizeSkills_eq] at hcl
    rcases List.mem_append.mp hcl with hl | hr
    · obtain ⟨ct, hct, rfl⟩ := List.mem_map.mp hl
      exact (List.mem_filter.mp hs).1
    · obtain rfl := List.mem_singleton.mp hr
      exact (List.mem_filter.mp hs).1
  · intro hs
    by_cases hm : ∃ ct ∈ categories, skillMatchesCategory s ct.2 = true
    · obtain ⟨ct, hct, hmt⟩ := hm
      refine ⟨(ct.1, allSkills.filter (fun skill => skillMatchesCategory skill ct.2)),
        ?_, ?_⟩
      · rw [categorizeSkills_eq]
        exact List.mem_append_left _ (List.mem_map.mpr ⟨ct, hct, rfl⟩)
      · exact List.mem_filter.mpr ⟨hs, hmt⟩
    · refine ⟨("Other", allSkills.filter (fun x =>
          !((categories.map (fun ct =>
              allSkills.filter (fun skill => skillMatchesCategory skill ct.2))).flatten.contains
            x))), ?_, ?_⟩
      · rw [categorizeSkills_eq]
        exact List.mem_append_right _ (List.mem_singleton.mpr rfl)
      · refine List.mem_filter.mpr ⟨hs, ?_⟩
        rw [Bool.not_eq_true', contains_eq_false_iff]
        intro hmem
        exact hm ((mem_categorized_iff allSkills s).mp hmem).2
  · intro ct hct hs hmt
    refine ⟨allSkills.filter (fun skill => skillMatchesCategory skill ct.2), ?_, ?_⟩
    · rw [categorizeSkills_eq]
      exact List.mem_append_left _ (List.mem_map.mpr ⟨ct, hct, rfl⟩)
    · exact List.mem_filter.mpr ⟨hs, hmt⟩
  · intro l hl
    rw [categorizeSkills_eq] at hl
    rcases List.mem_append.mp hl with hml | hmr
    · obtain ⟨ct, hct, heq⟩ := List.mem_map.mp hml
      exact absurd (congrArg Prod.fst heq) (categories_no_other ct hct)
    · have heq := List.mem_singleton.mp hmr
      obtain rfl : l = allSkills.filter (fun x =>
          !((categories.map (fun ct =>
              allSkills.filter (fun skill => skillMatchesCategory skill ct.2))).flatten.contains
            x)) := ((Prod.mk.injEq _ _ _ _).mp heq).2
      rw [List.mem_filter, Bool.not_eq_true', contains_eq_false_iff]
      constructor
      · rintro ⟨hs, hco⟩
        refine ⟨hs, fun ct hct => ?_⟩
        rw [Bool.eq_false_iff]
        intro hmt
        exact hco ((mem_categorized_iff allSkills s).mpr ⟨hs, ct, hct, hmt⟩)
      · rintro ⟨hs, hall⟩
        refine ⟨hs, fun hmem => ?_⟩
        obtain ⟨-, ct, hct, hmt⟩ := (mem_categorized_iff allSkills s).mp hmem
        rw [hall ct hct] at hmt
        cases hmt

/-- Witness for C10 on a concrete skill list: the union property at each
input skill, a matched skill landing in its category, and the Other-list
characterization. -/
theorem C10_witness :
    ((∃ cl ∈ categorizeSkills ["React", "Zzz"], "Zzz" ∈ cl.2) ↔ "Zzz" ∈ ["React", "Zzz"])
    ∧ (∃ l, ("Frontend", l) ∈ categorizeSkills ["React", "Zzz"] ∧ "React" ∈ l)
    ∧ ("Zzz" ∈ ["Zzz"] ↔ ("Zzz" ∈ ["React", "Zzz"]
        ∧ ∀ ct ∈ categories, skillMatchesCategory "Zzz" ct.2 = false)) :=
  ⟨(C10_categorizeSkills_cover ["React", "Zzz"] "Zzz").1,
   (C10_categorizeSkills_cover ["React", "Zzz"] "React").2.1
      ("Frontend", ["React", "TypeScript", "JavaScript", "HTML", "CSS", "Vite",
        "Tailwind", "Vue", "Angular"]) (by decide) (by decide) (by decide),
   (C10_categorizeSkills_cover ["React", "Zzz"] "Zzz").2.2 ["Zzz"] (by decide)⟩
